import Mathlib

/-!
Verification development for the intraday scheduling and market-session
engine of the stockadvisor repository: a shallow embedding of
`TimezoneConverter`, `MarketHoursDetector` and `IntradayMonitor`
(`stock_market_analysis/components/intraday/`), with theorems about the
behaviour of the embedded operations.

Conventions of the embedding:
- instants are minutes since the start of proleptic-Gregorian day 1
  (0001-01-01), as `Int`; `Int.ediv`/`Int.emod` mirror Python's floor
  division `//` and `%`;
- Python dicts are association lists `List (κ × α)` with insertion-order
  update semantics;
- external collaborators (pytz's timezone database, the configuration
  manager, the analysis engine, the trade executor) are parameters:
  functions or `Except`-valued oracles supplied to the embedded code;
- code that catches every exception is embedded as a total function whose
  error branches correspond to the `Except.error` results of the oracles.
-/

set_option autoImplicit false

namespace SMA

/-! ## Association-list dictionaries (Python `dict` / `defaultdict`) -/

/-- Lookup of a key in an association list (Python `d.get(k)` / `k in d`). -/
def lookupEntry {κ α : Type} [DecidableEq κ] (k : κ) : List (κ × α) → Option α
  | [] => none
  | (k', v) :: rest => if k' = k then some v else lookupEntry k rest

/-- Lookup with a default (Python `d.get(k, dflt)`). -/
def getEntryD {κ α : Type} [DecidableEq κ] (m : List (κ × α)) (k : κ) (dflt : α) : α :=
  (lookupEntry k m).getD dflt

/-- Update-or-append of a key (Python `d[k] = v`). -/
def setEntry {κ α : Type} [DecidableEq κ] (m : List (κ × α)) (k : κ) (v : α) :
    List (κ × α) :=
  match m with
  | [] => [(k, v)]
  | (k', v') :: rest => if k' = k then (k, v) :: rest else (k', v') :: setEntry rest k v

theorem lookupEntry_setEntry_self {κ α : Type} [DecidableEq κ]
    (m : List (κ × α)) (k : κ) (v : α) : lookupEntry k (setEntry m k v) = some v := by
  induction m with
  | nil => simp [setEntry, lookupEntry]
  | cons hd tl ih =>
    obtain ⟨k', v'⟩ := hd
    by_cases h : k' = k <;> simp [setEntry, lookupEntry, h, ih]

theorem lookupEntry_setEntry_ne {κ α : Type} [DecidableEq κ]
    (m : List (κ × α)) (k k' : κ) (v : α) (h : k ≠ k') :
    lookupEntry k' (setEntry m k v) = lookupEntry k' m := by
  induction m with
  | nil => simp [setEntry, lookupEntry, h]
  | cons hd tl ih =>
    obtain ⟨k₀, v₀⟩ := hd
    by_cases h₀ : k₀ = k
    · subst h₀; simp [setEntry, lookupEntry, h]
    · simp only [setEntry, if_neg h₀, lookupEntry]
      by_cases h₁ : k₀ = k' <;> simp [h₁, ih]

theorem getEntryD_setEntry_self {κ α : Type} [DecidableEq κ]
    (m : List (κ × α)) (k : κ) (v : α) (dflt : α) :
    getEntryD (setEntry m k v) k dflt = v := by
  simp [getEntryD, lookupEntry_setEntry_self]

theorem getEntryD_setEntry_ne {κ α : Type} [DecidableEq κ]
    (m : List (κ × α)) (k k' : κ) (v : α) (dflt : α) (h : k ≠ k') :
    getEntryD (setEntry m k v) k' dflt = getEntryD m k' dflt := by
  simp [getEntryD, lookupEntry_setEntry_ne _ _ _ _ h]

/-! ## Calendar arithmetic

Dates follow Python's `datetime.date`: proleptic Gregorian calendar,
`toordinal` ranging from 1 at 0001-01-01.  The ordinal/date conversions are
the standard civil-calendar algorithms, written with Euclidean division
(which agrees with Python's floor division for the positive divisors used).
-/

/-- A calendar date (`datetime.date`). -/
structure Date where
  year : Nat
  month : Nat
  day : Nat
deriving DecidableEq, Repr

/-- Gregorian leap-year rule (Python `calendar.isleap`). -/
def isLeapYear (y : Nat) : Bool :=
  y % 4 = 0 && (y % 100 ≠ 0 || y % 400 = 0)

/-- Number of days in a month. -/
def daysInMonth (y m : Nat) : Nat :=
  if m = 2 then (if isLeapYear y then 29 else 28)
  else if m = 4 ∨ m = 6 ∨ m = 9 ∨ m = 11 then 30
  else 31

/-- `date.toordinal()`: days since 0000-12-31 (0001-01-01 ↦ 1). -/
def dateToOrdinal (year month day : Nat) : Int :=
  let y : Int := if month ≤ 2 then (year : Int) - 1 else (year : Int)
  let era : Int := Int.ediv y 400
  let yoe : Int := y - era * 400
  let mp : Int := Int.emod ((month : Int) + 9) 12
  let doy : Int := Int.ediv (153 * mp + 2) 5 + (day : Int) - 1
  let doe : Int := yoe * 365 + Int.ediv yoe 4 - Int.ediv yoe 100 + doy
  era * 146097 + doe - 305

/-- Inverse of `dateToOrdinal` (`date.fromordinal`). -/
def ordinalToDate (ord : Int) : Date :=
  let z : Int := ord + 305
  let era : Int := Int.ediv z 146097
  let doe : Int := z - era * 146097
  let yoe : Int :=
    Int.ediv (doe - Int.ediv doe 1460 + Int.ediv doe 36524 - Int.ediv doe 146096) 365
  let y : Int := yoe + era * 400
  let doy : Int := doe - (365 * yoe + Int.ediv yoe 4 - Int.ediv yoe 100)
  let mp : Int := Int.ediv (5 * doy + 2) 153
  let d : Int := doy - Int.ediv (153 * mp + 2) 5 + 1
  let m : Int := mp + (if mp < 10 then 3 else -9)
  ⟨(y + (if m ≤ 2 then 1 else 0)).toNat, m.toNat, d.toNat⟩

/-- Minutes-since-epoch instant of a UTC wall-clock reading (helper for
concrete test instants; epoch is minute 0 of ordinal day 1). -/
def mkMinutes (year month day hour minute : Nat) : Int :=
  (dateToOrdinal year month day - 1) * 1440 + (hour : Int) * 60 + (minute : Int)

/-- Python `weekday()` of the day containing a wall-clock minute count:
Monday = 0 … Sunday = 6. -/
def weekdayOfMinutes (w : Int) : Int :=
  Int.emod (Int.ediv w 1440) 7

/-- The `date()` of a wall-clock minute count. -/
def dateOfMinutes (w : Int) : Date :=
  ordinalToDate (Int.ediv w 1440 + 1)

/-- The `time()` of a wall-clock minute count, as minutes since local
midnight. -/
def timeOfMinutes (w : Int) : Int :=
  Int.emod w 1440

/-! ## Parsing `YYYY-MM-DD` (Python `datetime.strptime(s, "%Y-%m-%d")`)

Python's `_strptime` matches `%Y` as exactly four digits, `%m` as
`1[0-2]|0[1-9]|[1-9]` and `%d` as `3[01]|[12]\d|0[1-9]|[1-9]` (one or two
digits, value within range, `00` excluded), with literal `-` separators and
no unconverted trailing data; the `datetime` constructor then rejects a day
beyond the month's length and a year outside `MINYEAR = 1`.
-/

/-- Numeric value of an all-digit character group. -/
def natOfDigits (cs : List Char) : Nat :=
  cs.foldl (fun n c => n * 10 + (c.toNat - 48)) 0

/-- Whether a character group is nonempty and all decimal digits. -/
def allDigits (cs : List Char) : Bool :=
  !cs.isEmpty && cs.all Char.isDigit

/-- Split a character list at every `-` (the literal separators of the
`%Y-%m-%d` format). -/
def splitDash : List Char → List (List Char)
  | [] => [[]]
  | c :: rest =>
    match splitDash rest with
    | [] => [[c]]
    | group :: groups =>
      if c = '-' then [] :: group :: groups
      else (c :: group) :: groups

/-- `datetime.strptime(s, "%Y-%m-%d").date()`, as an `Option`. -/
def strptimeYmd (s : String) : Option Date :=
  match splitDash s.data with
  | [ys, ms, ds] =>
    if ys.length = 4 && allDigits ys
        && ms.length ≤ 2 && allDigits ms
        && ds.length ≤ 2 && allDigits ds then
      let y := natOfDigits ys
      let m := natOfDigits ms
      let d := natOfDigits ds
      if 1 ≤ y && 1 ≤ m && m ≤ 12 && 1 ≤ d && d ≤ daysInMonth y m then
        some ⟨y, m, d⟩
      else none
    else none
  | _ => none

/-! ## Timezones and datetimes

pytz is an external collaborator: the embedding abstracts a timezone as its
UTC-offset behaviour (in minutes) and the whole database as a partial map
from IANA identifiers, a parameter of every operation that consults pytz.
A `pytz.timezone(name)` lookup that fails is an `UnknownTimeZoneError`.
-/

/-- A pytz timezone: UTC offset (minutes) at a given UTC instant, and the
offset `localize` assigns to a naive wall-clock reading (pytz's
`is_dst=False` resolution). -/
structure Tz where
  utcOffsetAt : Int → Int
  localizeOffsetAt : Int → Int

/-- A `datetime`: naive (wall-clock only) or timezone-aware (UTC instant
plus the wall clock it displays in its named zone). -/
inductive Dt
  | naive (wall : Int)
  | aware (instant : Int) (wall : Int) (tzName : String)
deriving DecidableEq, Repr

/-- The UTC instant an aware datetime denotes (`none` for naive). -/
def Dt.instantOf : Dt → Option Int
  | .naive _ => none
  | .aware i _ _ => some i

/-- The wall-clock reading of a datetime. -/
def Dt.wallOf : Dt → Int
  | .naive w => w
  | .aware _ w _ => w

/-- An aware datetime in UTC (`pytz.utc` attaches offset 0). -/
def Dt.utc (i : Int) : Dt := .aware i i "UTC"

/-- `TimezoneConverter.utc_to_local`: normalize the input to aware UTC
(localizing a naive input as UTC, converting an aware non-UTC input), look
up the target timezone (raising `UnknownTimeZoneError` when absent), and
`astimezone` into it — the instant is preserved, only the wall clock and
zone change. -/
def utc_to_local (tzdb : String → Option Tz) (utcTime : Dt) (timezoneName : String) :
    Except String Dt :=
  let i : Int :=
    match utcTime with
    | .naive w => w
    | .aware i _ _ => i
  match tzdb timezoneName with
  | none => .error ("UnknownTimeZoneError: " ++ timezoneName)
  | some z => .ok (.aware i (i + z.utcOffsetAt i) timezoneName)

/-- `TimezoneConverter.local_to_utc`: look up the source timezone (raising
`UnknownTimeZoneError` when absent), localize a naive input in it, and
`astimezone` to UTC. -/
def local_to_utc (tzdb : String → Option Tz) (localTime : Dt) (timezoneName : String) :
    Except String Dt :=
  match tzdb timezoneName with
  | none => .error ("UnknownTimeZoneError: " ++ timezoneName)
  | some z =>
    let i : Int :=
      match localTime with
      | .naive w => w - z.localizeOffsetAt w
      | .aware i _ _ => i
    .ok (Dt.utc i)

/-- `TimezoneConverter.get_timezone_offset`. -/
def get_timezone_offset (tzdb : String → Option Tz) (timezoneName : String) (dt : Dt) :
    Except String Int :=
  let i : Int :=
    match dt with
    | .naive w => w
    | .aware i _ _ => i
  match tzdb timezoneName with
  | none => .error ("UnknownTimeZoneError: " ++ timezoneName)
  | some z => .ok (z.utcOffsetAt i)

/-- Whether an `Except` result is a success. -/
def exceptOk {ε α : Type} : Except ε α → Bool
  | .ok _ => true
  | .error _ => false

/-! ## MarketHoursDetector -/

/-- The supported market regions (`MarketRegion` enum). -/
inductive MarketRegion
  | CHINA
  | HONG_KONG
  | USA
deriving DecidableEq, Repr

/-- `MarketRegion(value)` on a configuration string. -/
def parseMarketRegion : String → Option MarketRegion
  | "china" => some .CHINA
  | "hong_kong" => some .HONG_KONG
  | "usa" => some .USA
  | _ => none

/-- One entry of the static trading-hours table: local open and close as
minutes since local midnight, and the market's IANA timezone id. -/
structure MarketInfo where
  openTime : Int
  closeTime : Int
  tzName : String
deriving DecidableEq, Repr

/-- The static `MARKET_HOURS` table (`Option`-valued to mirror the Python
`dict.get`; it is populated for every member of the closed region enum). -/
def MARKET_HOURS : MarketRegion → Option MarketInfo
  | .CHINA => some ⟨9 * 60 + 30, 15 * 60, "Asia/Shanghai"⟩
  | .HONG_KONG => some ⟨9 * 60 + 30, 16 * 60, "Asia/Hong_Kong"⟩
  | .USA => some ⟨9 * 60 + 30, 16 * 60, "America/New_York"⟩

/-- The detector's external collaborators: pytz's timezone database and the
configuration manager's holiday source (which may raise). -/
structure DetectorEnv where
  tzdb : String → Option Tz
  getMarketHolidays : MarketRegion → Except String (List String)

/-- The detector's `_holidays_cache` dict. -/
def HolidayCache : Type := List (MarketRegion × List Date)

instance : DecidableEq HolidayCache := by
  unfold HolidayCache; infer_instance

/-- `MarketHoursDetector.load_holidays`: fetch the configured holiday
strings (any error in the source is caught and yields `[]`), parse each as
`YYYY-MM-DD`, and skip — without failing the load — every string that does
not parse. -/
def load_holidays (env : DetectorEnv) (region : MarketRegion) : List Date :=
  match env.getMarketHolidays region with
  | .error _ => []
  | .ok holidayStrings => holidayStrings.filterMap strptimeYmd

/-- `MarketHoursDetector.is_market_holiday`: consult the cache, loading and
caching the region's holidays on first use, and test membership of the
date.  (The surrounding `try/except` of the source has no reachable error:
`load_holidays` already catches everything.) -/
def is_market_holiday (env : DetectorEnv) (cache : HolidayCache)
    (region : MarketRegion) (checkDate : Date) : Bool × HolidayCache :=
  match lookupEntry region cache with
  | some holidays => (decide (checkDate ∈ holidays), cache)
  | none =>
    let holidays := load_holidays env region
    (decide (checkDate ∈ holidays), setEntry cache region holidays)

/-- `MarketHoursDetector.is_weekend`: Python `weekday() >= 5`
(Saturday = 5, Sunday = 6). -/
def is_weekend (localTime : Dt) : Bool :=
  decide (weekdayOfMinutes localTime.wallOf ≥ 5)

/-- `MarketHoursDetector.is_market_open`: localize a naive check time as
UTC, look up the region's trading-hours entry (absent ⇒ closed), convert to
the market's local time (a converter error is caught by the function's
top-level handler ⇒ closed), then closed on weekends, closed on configured
holidays, and otherwise open iff `open ≤ local < close` (half-open).
Embedded as a total function: every caught exception is an explicit
`false` branch. -/
def is_market_open (env : DetectorEnv) (cache : HolidayCache)
    (region : MarketRegion) (checkTime : Dt) : Bool × HolidayCache :=
  let checkTime' : Dt :=
    match checkTime with
    | .naive w => Dt.utc w
    | t => t
  match MARKET_HOURS region with
  | none => (false, cache)
  | some marketInfo =>
    match utc_to_local env.tzdb checkTime' marketInfo.tzName with
    | .error _ => (false, cache)
    | .ok localTime =>
      if is_weekend localTime then (false, cache)
      else
        let hol := is_market_holiday env cache region (dateOfMinutes localTime.wallOf)
        if hol.1 then (false, hol.2)
        else
          (decide (marketInfo.openTime ≤ timeOfMinutes localTime.wallOf ∧
                   timeOfMinutes localTime.wallOf < marketInfo.closeTime),
           hol.2)

/-- `MarketHoursDetector.get_market_hours`: the static table entry, raising
`ValueError` for an unsupported region. -/
def get_market_hours (region : MarketRegion) : Except String (Int × Int) :=
  match MARKET_HOURS region with
  | none => .error "Unsupported market region"
  | some marketInfo => .ok (marketInfo.openTime, marketInfo.closeTime)

/-! ## IntradayMonitor: data model -/

/-- `AnalysisCycleResult` (`intraday/models.py`). -/
structure AnalysisCycleResult where
  success : Bool
  region : MarketRegion
  start_time : Int
  end_time : Int
  recommendations_count : Nat
  trades_executed : Nat
  error_message : Option String
deriving DecidableEq, Repr

/-- `MonitoringStatus` (`intraday/models.py`). -/
structure MonitoringStatus where
  region : MarketRegion
  is_active : Bool
  is_paused : Bool
  pause_reason : Option String
  pause_until : Option Int
  last_cycle_time : Option Int
  next_cycle_time : Option Int
  consecutive_failures : Nat
  total_cycles_today : Nat
deriving DecidableEq, Repr

/-- The result contract of the external `AnalysisEngine
.execute_scheduled_analysis` collaborator, over an abstract
recommendation type. -/
structure AnalysisFnResult (α : Type) where
  success : Bool
  recommendations : List α
  error_message : Option String
  retry_count : Nat

/-- The `IntradayMonitor`'s per-region dicts (`__init__`).  Thread objects
are abstracted to their aliveness; stop-flag `Event`s to their set bit. -/
structure MonitorState where
  monitoring_threads : List (MarketRegion × Bool)
  stop_flags : List (MarketRegion × Bool)
  monitoring_active : List (MarketRegion × Bool)
  is_paused : List (MarketRegion × Bool)
  pause_until : List (MarketRegion × Option Int)
  pause_reason : List (MarketRegion × Option String)
  consecutive_failures : List (MarketRegion × Nat)
  last_cycle_time : List (MarketRegion × Option Int)
  next_cycle_time : List (MarketRegion × Option Int)
  total_cycles_today : List (MarketRegion × Nat)
  global_stop : Bool
deriving DecidableEq, Repr

/-- The freshly-constructed monitor: every dict empty, global stop clear. -/
def MonitorState.initial : MonitorState :=
  ⟨[], [], [], [], [], [], [], [], [], [], false⟩

/-- `get_intraday_config()`'s result, after the `.get(...)` defaults. -/
structure IntradayConfig where
  enabled : Bool
  monitoring_interval_minutes : Int
  monitored_regions : List String
deriving DecidableEq, Repr

/-! ## IntradayMonitor: operations -/

/-- `IntradayMonitor.get_monitoring_status`: a pure read with the same
defaults as the Python `dict.get` calls. -/
def get_monitoring_status (st : MonitorState) (region : MarketRegion) :
    MonitoringStatus :=
  ⟨region,
   getEntryD st.monitoring_active region false,
   getEntryD st.is_paused region false,
   getEntryD st.pause_reason region none,
   getEntryD st.pause_until region none,
   getEntryD st.last_cycle_time region none,
   getEntryD st.next_cycle_time region none,
   getEntryD st.consecutive_failures region 0,
   getEntryD st.total_cycles_today region 0⟩

/-- The per-region body of `start_monitoring`'s loop: skip a region whose
thread is alive, otherwise create its stop flag, set active, clear the
pause fields, and record the new (alive) thread. -/
def startRegion (st : MonitorState) (region : MarketRegion) : MonitorState :=
  if lookupEntry region st.monitoring_threads = some true then st
  else
    { st with
      stop_flags := setEntry st.stop_flags region false,
      monitoring_active := setEntry st.monitoring_active region true,
      is_paused := setEntry st.is_paused region false,
      pause_until := setEntry st.pause_until region none,
      pause_reason := setEntry st.pause_reason region none,
      monitoring_threads := setEntry st.monitoring_threads region true }

/-- `IntradayMonitor.start_monitoring`: read the configuration (any
exception is caught and leaves the state untouched), return early when
disabled, when no regions are configured, or when no configured name is a
valid region; otherwise start each valid region in order. -/
def start_monitoring (configCall : Except String IntradayConfig)
    (st : MonitorState) : MonitorState :=
  match configCall with
  | .error _ => st
  | .ok config =>
    if ¬config.enabled then st
    else if config.monitored_regions = [] then st
    else
      let regions := config.monitored_regions.filterMap parseMarketRegion
      if regions = [] then st
      else regions.foldl startRegion st

/-- The join loop of `stop_monitoring` over the thread dict: an alive
thread is joined only while the remaining shared budget is positive, and
each join consumes at most the remaining budget (`durations r` is the time
thread `r` needs to exit). -/
def joinWaitAux (budget : Int) (durations : MarketRegion → Int) :
    List (MarketRegion × Bool) → Int → Int
  | [], elapsed => elapsed
  | p :: rest, elapsed =>
    if p.2 then
      if budget - elapsed > 0 then
        joinWaitAux budget durations rest
          (elapsed + min (durations p.1) (budget - elapsed))
      else joinWaitAux budget durations rest elapsed
    else joinWaitAux budget durations rest elapsed

/-- The total time `stop_monitoring` spends joining threads. -/
def joinWaitTotal (budget : Int) (threads : List (MarketRegion × Bool))
    (durations : MarketRegion → Int) : Int :=
  joinWaitAux budget durations threads 0

/-- `IntradayMonitor.stop_monitoring`: set the global stop flag, set every
region's stop flag and mark it inactive, wait for the threads under the
fixed 30-second total budget, then clear the thread and stop-flag dicts
(and only those).  Returns the new state and the total join wait. -/
def stop_monitoring (durations : MarketRegion → Int) (st : MonitorState) :
    MonitorState × Int :=
  let st₁ : MonitorState :=
    { st with
      global_stop := true,
      stop_flags := st.stop_flags.map (fun p => (p.1, true)),
      monitoring_active :=
        st.stop_flags.foldl (fun act p => setEntry act p.1 false)
          st.monitoring_active }
  let wait := joinWaitTotal 30 st₁.monitoring_threads durations
  ({ st₁ with monitoring_threads := [], stop_flags := [] }, wait)

/-- f-string rendering of an `Optional[str]`. -/
def optionStr : Option String → String
  | some s => s
  | none => "None"

/-- The trade loop of `execute_analysis_cycle`: one `execute_recommendation`
call per recommendation, a per-call exception caught and counted as no
trade without aborting the rest, a non-null (`some`) trade counted. -/
def runTrades {α β : Type} (execRecommendation : α → Except String (Option β)) :
    List α → Nat
  | [] => 0
  | r :: rest =>
    (match execRecommendation r with
     | .ok (some _) => 1
     | _ => 0) + runTrades execRecommendation rest

/-- `IntradayMonitor.execute_analysis_cycle`: call the analysis
collaborator (an exception anywhere is caught by the top-level handler and
becomes a failed result); a reported analysis failure becomes a failed
result with zero counts; otherwise run the trade loop and report success
with the recommendation and trade counts.  `startTime`/`endTime` are the
`utcnow()` readings at entry and at result construction. -/
def execute_analysis_cycle {α β : Type} (startTime endTime : Int)
    (analysisCall : Except String (AnalysisFnResult α))
    (execRecommendation : α → Except String (Option β))
    (region : MarketRegion) : AnalysisCycleResult :=
  match analysisCall with
  | .error e =>
    ⟨false, region, startTime, endTime, 0, 0,
      some ("Analysis cycle failed: " ++ e)⟩
  | .ok analysisResult =>
    if ¬analysisResult.success then
      ⟨false, region, startTime, endTime, 0, 0,
        some ("Analysis failed: " ++ optionStr analysisResult.error_message)⟩
    else
      ⟨true, region, startTime, endTime,
       analysisResult.recommendations.length,
       runTrades execRecommendation analysisResult.recommendations, none⟩

/-- `IntradayMonitor._pause_monitoring`. -/
def pause_monitoring (region : MarketRegion) (durationMinutes : Int)
    (now : Int) (reason : String) (st : MonitorState) : MonitorState :=
  { st with
    is_paused := setEntry st.is_paused region true,
    pause_until := setEntry st.pause_until region (some (now + durationMinutes)),
    pause_reason := setEntry st.pause_reason region (some reason) }

/-- `IntradayMonitor._handle_cycle_error`: increment the region's failure
count; at 3 or more, trip the circuit breaker with a 30-minute pause. -/
def handle_cycle_error (region : MarketRegion) (now : Int) (errorText : String)
    (st : MonitorState) : MonitorState :=
  let failureCount := getEntryD st.consecutive_failures region 0 + 1
  let st' : MonitorState :=
    { st with
      consecutive_failures := setEntry st.consecutive_failures region failureCount }
  if failureCount ≥ 3 then
    pause_monitoring region 30 now ("3 consecutive failures: " ++ errorText) st'
  else st'

/-- `IntradayMonitor._should_execute_cycle`: false when the market is not
open; otherwise false when a next-cycle time is set and not yet reached;
otherwise true.  `tOpen` is the `utcnow()` read inside the detector (it is
called without an explicit check time) and `tCmp` the `utcnow()` of the
next-cycle comparison. -/
def should_execute_cycle (env : DetectorEnv) (cache : HolidayCache)
    (region : MarketRegion) (tOpen tCmp : Int) (nextCycleTime : Option Int) :
    Bool × HolidayCache :=
  let mo := is_market_open env cache region (.naive tOpen)
  if ¬mo.1 then (false, mo.2)
  else
    match nextCycleTime with
    | some t => if tCmp < t then (false, mo.2) else (true, mo.2)
    | none => (true, mo.2)

/-- `str(Exception(result.error_message or "Unknown error"))`: the text the
loop hands to `_handle_cycle_error` for a failed cycle. -/
def cycleErrorText (result : AnalysisCycleResult) : String :=
  match result.error_message with
  | some e => if e = "" then "Unknown error" else e
  | none => "Unknown error"

/-- The pause-expiry resume of the monitoring loop: clear the pause fields
and reset the failure count. -/
def resumeRegion (region : MarketRegion) (st : MonitorState) : MonitorState :=
  { st with
    is_paused := setEntry st.is_paused region false,
    pause_until := setEntry st.pause_until region none,
    pause_reason := setEntry st.pause_reason region none,
    consecutive_failures := setEntry st.consecutive_failures region 0 }

/-- The successive `utcnow()` readings of one loop iteration: at the pause
check, inside the first `is_market_open`, inside and after the
`_should_execute_cycle` check, inside `_handle_cycle_error`'s pause, inside
the post-cycle `is_market_open`, and at next-cycle scheduling. -/
structure TickTimes where
  tPause : Int
  tOpen : Int
  tShouldOpen : Int
  tShouldCmp : Int
  tErr : Int
  tAfter : Int
  tNext : Int
deriving DecidableEq, Repr

/-- The closed→open transition reset of the loop: on that edge,
`next_cycle_time` is cleared so a cycle is eligible immediately. -/
def tickOpenReset (region : MarketRegion) (isOpen wasOpen : Bool)
    (st : MonitorState) : MonitorState :=
  if isOpen && !wasOpen then
    { st with next_cycle_time := setEntry st.next_cycle_time region none }
  else st

/-- The loop's post-cycle bookkeeping: on success reset the failure count,
record the cycle end time and bump the daily counter; on failure invoke
`_handle_cycle_error` with the result's error text. -/
def tickCycleUpdate (region : MarketRegion) (tErr : Int)
    (result : AnalysisCycleResult) (st₁ : MonitorState) : MonitorState :=
  if result.success then
    { st₁ with
      consecutive_failures := setEntry st₁.consecutive_failures region 0,
      last_cycle_time :=
        setEntry st₁.last_cycle_time region (some result.end_time),
      total_cycles_today :=
        setEntry st₁.total_cycles_today region
          (getEntryD st₁.total_cycles_today region 0 + 1) }
  else handle_cycle_error region tErr (cycleErrorText result) st₁

/-- The loop's post-cycle rescheduling: while the market is still open the
next cycle is due one interval later; otherwise `next_cycle_time` is
cleared. -/
def tickReschedule (region : MarketRegion) (tNext intervalMinutes : Int)
    (stillOpen : Bool) (st₂ : MonitorState) : MonitorState :=
  if stillOpen then
    { st₂ with
      next_cycle_time :=
        setEntry st₂.next_cycle_time region
          (some (tNext + intervalMinutes)) }
  else { st₂ with next_cycle_time := setEntry st₂.next_cycle_time region none }

/-- The un-paused part of one `_monitoring_loop` iteration: market check
and open/close edge detection, the `_should_execute_cycle` gate, the cycle
(whose `AnalysisCycleResult` is the `result` argument), success/failure
bookkeeping, and post-cycle rescheduling.  Returns the monitor state, the
loop-local `was_market_open`, and the holiday cache. -/
def tickBody (env : DetectorEnv) (region : MarketRegion)
    (intervalMinutes : Int) (tt : TickTimes) (result : AnalysisCycleResult)
    (st : MonitorState) (cache : HolidayCache) (wasOpen : Bool) :
    MonitorState × Bool × HolidayCache :=
  let mo := is_market_open env cache region (.naive tt.tOpen)
  let st₁ := tickOpenReset region mo.1 wasOpen st
  let se :=
    should_execute_cycle env mo.2 region tt.tShouldOpen tt.tShouldCmp
      (getEntryD st₁.next_cycle_time region none)
  if se.1 then
    let st₂ := tickCycleUpdate region tt.tErr result st₁
    let mo' := is_market_open env se.2 region (.naive tt.tAfter)
    (tickReschedule region tt.tNext intervalMinutes mo'.1 st₂,
     if mo'.1 then mo.1 else false, mo'.2)
  else (st₁, mo.1, se.2)

/-- One full `_monitoring_loop` iteration: the pause gate first (a paused
region with an unexpired or unset `pause_until` skips the whole tick; an
expired pause resumes and falls through to the same tick's body). -/
def tick (env : DetectorEnv) (region : MarketRegion) (intervalMinutes : Int)
    (tt : TickTimes) (result : AnalysisCycleResult) (st : MonitorState)
    (cache : HolidayCache) (wasOpen : Bool) :
    MonitorState × Bool × HolidayCache :=
  if getEntryD st.is_paused region false then
    match getEntryD st.pause_until region none with
    | some pauseUntil =>
      if tt.tPause ≥ pauseUntil then
        tickBody env region intervalMinutes tt result
          (resumeRegion region st) cache wasOpen
      else (st, wasOpen, cache)
    | none => (st, wasOpen, cache)
  else tickBody env region intervalMinutes tt result st cache wasOpen

/-! ## Spec-side tick predicates

Independent definitions of the conditions that gate one tick, used to
state the failure-counter discipline. -/

/-- Whether the tick performs a pause-expiry resume. -/
def tickResumed (region : MarketRegion) (tt : TickTimes) (st : MonitorState) :
    Bool :=
  getEntryD st.is_paused region false &&
    match getEntryD st.pause_until region none with
    | some pauseUntil => decide (tt.tPause ≥ pauseUntil)
    | none => false

/-- Whether the tick is skipped entirely (still paused). -/
def tickSkipped (region : MarketRegion) (tt : TickTimes) (st : MonitorState) :
    Bool :=
  getEntryD st.is_paused region false && !tickResumed region tt st

/-- The `_should_execute_cycle` gate of the tick body: the market check on
the given state and cache, the open-transition reset of `next_cycle_time`,
then the gate itself. -/
def tickBodyCycled (env : DetectorEnv) (region : MarketRegion) (tt : TickTimes)
    (st : MonitorState) (cache : HolidayCache) (wasOpen : Bool) : Bool :=
  let mo := is_market_open env cache region (.naive tt.tOpen)
  let st₁ := tickOpenReset region mo.1 wasOpen st
  (should_execute_cycle env mo.2 region tt.tShouldOpen tt.tShouldCmp
    (getEntryD st₁.next_cycle_time region none)).1

/-- Whether the tick executes an analysis cycle: not skipped, and the
`_should_execute_cycle` gate — evaluated on the state after a possible
resume — is true. -/
def tickCycled (env : DetectorEnv) (region : MarketRegion) (tt : TickTimes)
    (st : MonitorState) (cache : HolidayCache) (wasOpen : Bool) : Bool :=
  if tickSkipped region tt st then false
  else
    tickBodyCycled env region tt
      (if tickResumed region tt st then resumeRegion region st else st)
      cache wasOpen

/-! ## Concrete fixtures for witnesses and counterexamples -/

/-- A fixed-offset timezone (offset in minutes; Hong Kong and Shanghai are
UTC+8 with no DST). -/
def tzFixed (offset : Int) : Tz := ⟨fun _ => offset, fun _ => offset⟩

/-- A one-entry timezone database holding Hong Kong. -/
def tzdbHK : String → Option Tz := fun name =>
  if name = "Asia/Hong_Kong" then some (tzFixed 480) else none

/-- Detector environment: Hong Kong known, no holidays configured. -/
def envHK : DetectorEnv := ⟨tzdbHK, fun _ => .ok []⟩

/-- Detector environment: 2023-06-07 configured as a holiday. -/
def envHKHoliday : DetectorEnv := ⟨tzdbHK, fun _ => .ok ["2023-06-07"]⟩

/-- Detector environment: the holiday source raises. -/
def envHKErr : DetectorEnv := ⟨tzdbHK, fun _ => .error "holiday source failure"⟩

/-- Detector environment: an empty timezone database (every id unknown). -/
def envNoTz : DetectorEnv := ⟨fun _ => none, fun _ => .ok []⟩

/-- 2023-06-07 (a Wednesday) 02:00 UTC = 10:00 Hong Kong local. -/
def t0607_1000HK : Int := mkMinutes 2023 6 7 2 0

/-- 2023-06-07 (a Wednesday) 08:00 UTC = 16:00 Hong Kong local. -/
def t0607_1600HK : Int := mkMinutes 2023 6 7 8 0

/-! ## Helper lemmas -/

/-- The trade count never exceeds the number of recommendations. -/
theorem runTrades_le_length {α β : Type} (f : α → Except String (Option β)) :
    ∀ rs : List α, runTrades f rs ≤ rs.length := by
  intro rs
  induction rs with
  | nil => simp [runTrades]
  | cons r rest ih =>
    have hone : (match f r with | .ok (some _) => 1 | _ => 0) ≤ 1 := by
      cases hf : f r with
      | error e => simp
      | ok o => cases o <;> simp
    simp only [runTrades, List.length_cons]
    omega

/-- The trade loop counts exactly the calls returning a non-null trade. -/
theorem runTrades_eq_countP {α β : Type} (f : α → Except String (Option β)) :
    ∀ rs : List α,
      runTrades f rs =
        rs.countP (fun r => match f r with | .ok (some _) => true | _ => false) := by
  intro rs
  induction rs with
  | nil => simp [runTrades]
  | cons r rest ih =>
    have hone : (match f r with | .ok (some _) => (1 : Nat) | _ => 0) =
        if (match f r with | .ok (some _) => true | _ => false) = true then 1
        else 0 := by
      cases hf : f r with
      | error e => simp
      | ok o => cases o <;> simp
    rw [runTrades, ih, List.countP_cons, hone]
    omega

/-! ## Claim theorems -/

/-- C10 — Timezone round-trip: for every aware UTC instant and recognized
timezone id, `utc_to_local` succeeds and preserves the denoted instant
(only the representation changes), `local_to_utc` maps the result back to
the original UTC datetime, and both functions raise `UnknownTimeZoneError`
exactly when the id is not in the timezone database. -/
theorem c10_timezone_roundtrip (tzdb : String → Option Tz) (name : String)
    (i : Int) :
    (∀ z, tzdb name = some z →
      utc_to_local tzdb (Dt.utc i) name =
        .ok (.aware i (i + z.utcOffsetAt i) name) ∧
      (Dt.aware i (i + z.utcOffsetAt i) name).instantOf = (Dt.utc i).instantOf ∧
      local_to_utc tzdb (.aware i (i + z.utcOffsetAt i) name) name =
        .ok (Dt.utc i)) ∧
    (tzdb name = none →
      exceptOk (utc_to_local tzdb (Dt.utc i) name) = false ∧
      exceptOk (local_to_utc tzdb (Dt.utc i) name) = false) := by
  constructor
  · intro z hz
    refine ⟨?_, rfl, ?_⟩ <;> simp [utc_to_local, local_to_utc, hz, Dt.utc]
  · intro hz
    simp [utc_to_local, local_to_utc, hz, exceptOk, Dt.utc]

/-- Witness for C10 at the Hong Kong fixture. -/
theorem c10_witness :
    tzdbHK "Asia/Hong_Kong" = some (tzFixed 480) ∧
    utc_to_local tzdbHK (Dt.utc 0) "Asia/Hong_Kong" =
      .ok (.aware 0 (0 + (tzFixed 480).utcOffsetAt 0) "Asia/Hong_Kong") ∧
    local_to_utc tzdbHK (.aware 0 (0 + (tzFixed 480).utcOffsetAt 0)
      "Asia/Hong_Kong") "Asia/Hong_Kong" = .ok (Dt.utc 0) :=
  ⟨rfl,
   ((c10_timezone_roundtrip tzdbHK "Asia/Hong_Kong" 0).1 (tzFixed 480) rfl).1,
   ((c10_timezone_roundtrip tzdbHK "Asia/Hong_Kong" 0).1 (tzFixed 480) rfl).2.2⟩

/-- C9 — Result well-formedness: every `AnalysisCycleResult` produced by
`execute_analysis_cycle` has `trades_executed ≤ recommendations_count`
(the lower bound `0 ≤ trades_executed` is the `Nat` typing), has
`start_time ≤ end_time` whenever the clock readings are ordered, and on
failure has zero counts and a non-null error message. -/
theorem c9_result_wellformed {α β : Type} (startTime endTime : Int)
    (h : startTime ≤ endTime)
    (analysisCall : Except String (AnalysisFnResult α))
    (execRecommendation : α → Except String (Option β))
    (region : MarketRegion) :
    (execute_analysis_cycle startTime endTime analysisCall execRecommendation
        region).trades_executed ≤
      (execute_analysis_cycle startTime endTime analysisCall execRecommendation
        region).recommendations_count ∧
    (execute_analysis_cycle startTime endTime analysisCall execRecommendation
        region).start_time ≤
      (execute_analysis_cycle startTime endTime analysisCall execRecommendation
        region).end_time ∧
    ((execute_analysis_cycle startTime endTime analysisCall execRecommendation
        region).success = false →
      (execute_analysis_cycle startTime endTime analysisCall execRecommendation
          region).recommendations_count = 0 ∧
      (execute_analysis_cycle startTime endTime analysisCall execRecommendation
          region).trades_executed = 0 ∧
      (execute_analysis_cycle startTime endTime analysisCall execRecommendation
          region).error_message ≠ none) := by
  cases analysisCall with
  | error e => simp [execute_analysis_cycle, h]
  | ok ar =>
    by_cases hs : ar.success = true
    · simp [execute_analysis_cycle, hs, h, runTrades_le_length]
    · simp [execute_analysis_cycle, hs, h]

/-- Witness for C9: a failed analysis call at ordered clock readings. -/
theorem c9_witness :
    (0 : Int) ≤ 1 ∧
    ((execute_analysis_cycle 0 1 (Except.error "boom")
        (fun _ : Unit => Except.ok (none : Option Unit)) .CHINA).trades_executed ≤
      (execute_analysis_cycle 0 1 (Except.error "boom")
        (fun _ : Unit => Except.ok (none : Option Unit))
          .CHINA).recommendations_count) ∧
    (execute_analysis_cycle 0 1 (Except.error "boom")
        (fun _ : Unit => Except.ok (none : Option Unit)) .CHINA).success =
      false :=
  ⟨by decide,
   (c9_result_wellformed 0 1 (by decide) (Except.error "boom")
     (fun _ : Unit => Except.ok (none : Option Unit)) .CHINA).1,
   by decide⟩

/-- C4 — Cycle-execution contract: `execute_analysis_cycle` is total (an
exception from the analysis collaborator becomes a failed result), a
reported analysis failure yields a failed result with zero counts, and on
success the result counts the recommendations and exactly the
trade-executor calls that returned a non-null trade, a per-recommendation
exception counting as no trade without aborting the rest. -/
theorem c4_cycle_execution {α β : Type} (startTime endTime : Int)
    (analysisCall : Except String (AnalysisFnResult α))
    (execRecommendation : α → Except String (Option β))
    (region : MarketRegion) :
    (∀ e, analysisCall = .error e →
      execute_analysis_cycle startTime endTime analysisCall execRecommendation
          region =
        ⟨false, region, startTime, endTime, 0, 0,
          some ("Analysis cycle failed: " ++ e)⟩) ∧
    (∀ ar, analysisCall = .ok ar → ar.success = false →
      execute_analysis_cycle startTime endTime analysisCall execRecommendation
          region =
        ⟨false, region, startTime, endTime, 0, 0,
          some ("Analysis failed: " ++ optionStr ar.error_message)⟩) ∧
    (∀ ar, analysisCall = .ok ar → ar.success = true →
      execute_analysis_cycle startTime endTime analysisCall execRecommendation
          region =
        ⟨true, region, startTime, endTime, ar.recommendations.length,
          ar.recommendations.countP
            (fun r => match execRecommendation r with
              | .ok (some _) => true
              | _ => false),
          none⟩) := by
  refine ⟨?_, ?_, ?_⟩
  · intro e he; subst he; rfl
  · intro ar har hs; subst har; simp [execute_analysis_cycle, hs]
  · intro ar har hs; subst har
    simp [execute_analysis_cycle, hs, runTrades_eq_countP]

/-- The analysis collaborator reporting success with two recommendations. -/
def analysisOk2 : Except String (AnalysisFnResult String) :=
  .ok ⟨true, ["AAA", "BBB"], none, 0⟩

/-- A trade executor raising on the first recommendation and returning a
trade on the second. -/
def execFixture : String → Except String (Option Unit) := fun r =>
  if r = "AAA" then .error "trade executor boom" else .ok (some ())

/-- Witness for C4: 2 recommendations, the 1st raises, the 2nd succeeds ⇒
`success=true, recommendations_count=2, trades_executed=1`. -/
theorem c4_witness :
    analysisOk2 = .ok ⟨true, ["AAA", "BBB"], none, 0⟩ ∧
    execute_analysis_cycle 0 5 analysisOk2 execFixture .CHINA =
      ⟨true, .CHINA, 0, 5, 2, 1, none⟩ := by
  refine ⟨rfl, ?_⟩
  have h := (c4_cycle_execution 0 5 analysisOk2 execFixture .CHINA).2.2
    ⟨true, ["AAA", "BBB"], none, 0⟩ rfl rfl
  rw [h]; decide

/-- C8 — Holiday loading leniency: an erroring holiday source loads as the
empty list; on a successful fetch the loaded dates are exactly the
`YYYY-MM-DD`-parsable entries (unparsable strings are skipped without
failing the load); a cached region is answered from the cache — the state
is unchanged and the configuration source is not consulted (the answer is
the same under every environment); an uncached region loads once and
caches, so the source is consulted at most once per region. -/
theorem c8_holiday_loading (env : DetectorEnv) (region : MarketRegion) :
    (∀ e, env.getMarketHolidays region = .error e →
      load_holidays env region = []) ∧
    (∀ ss, env.getMarketHolidays region = .ok ss →
      ∀ d, d ∈ load_holidays env region ↔ ∃ s ∈ ss, strptimeYmd s = some d) ∧
    (∀ cache hs d, lookupEntry region cache = some hs →
      is_market_holiday env cache region d = (decide (d ∈ hs), cache) ∧
      ∀ env' : DetectorEnv,
        is_market_holiday env' cache region d = (decide (d ∈ hs), cache)) ∧
    (∀ cache d, lookupEntry region cache = none →
      is_market_holiday env cache region d =
        (decide (d ∈ load_holidays env region),
         setEntry cache region (load_holidays env region)) ∧
      lookupEntry region (setEntry cache region (load_holidays env region)) =
        some (load_holidays env region)) := by
  refine ⟨?_, ?_, ?_, ?_⟩
  · intro e he; simp [load_holidays, he]
  · intro ss hss d; simp [load_holidays, hss, List.mem_filterMap]
  · intro cache hs d hc
    exact ⟨by simp [is_market_holiday, hc],
           fun env' => by simp [is_market_holiday, hc]⟩
  · intro cache d hc
    exact ⟨by simp [is_market_holiday, hc], lookupEntry_setEntry_self _ _ _⟩

/-- A holiday source mixing valid dates with an unparsable string and an
impossible calendar date. -/
def envMix : DetectorEnv :=
  ⟨tzdbHK, fun _ => .ok ["2023-12-25", "not-a-date", "2023-02-30", "2023-6-7"]⟩

/-- Witness for C8: the two valid entries load, the malformed string and
the impossible date `2023-02-30` are skipped, and the load caches. -/
theorem c8_witness :
    envMix.getMarketHolidays .CHINA =
      .ok ["2023-12-25", "not-a-date", "2023-02-30", "2023-6-7"] ∧
    load_holidays envMix .CHINA = [⟨2023, 12, 25⟩, ⟨2023, 6, 7⟩] ∧
    ((⟨2023, 12, 25⟩ : Date) ∈ load_holidays envMix .CHINA ↔
      ∃ s ∈ ["2023-12-25", "not-a-date", "2023-02-30", "2023-6-7"],
        strptimeYmd s = some ⟨2023, 12, 25⟩) ∧
    is_market_holiday envMix [] .CHINA ⟨2023, 12, 25⟩ =
      (decide ((⟨2023, 12, 25⟩ : Date) ∈ load_holidays envMix .CHINA),
       setEntry [] .CHINA (load_holidays envMix .CHINA)) :=
  ⟨rfl, by decide,
   (c8_holiday_loading envMix .CHINA).2.1 _ rfl _,
   ((c8_holiday_loading envMix .CHINA).2.2.2 [] ⟨2023, 12, 25⟩ rfl).1⟩

/-- C2 — Circuit breaker: a recorded failure that brings the count to
exactly 3 pauses the region with `pause_until = now + 30` minutes (a
strictly future instant) and the reason message `"3 consecutive failures: "`
followed by the last error text; a failure leaving the count at 2 or below
leaves all pause fields untouched; and the handler leaves every other
region's observable status unchanged. -/
theorem c2_circuit_breaker (st : MonitorState) (region : MarketRegion)
    (now : Int) (errorText : String) :
    (getEntryD st.consecutive_failures region 0 = 2 →
      getEntryD (handle_cycle_error region now errorText st).is_paused region
          false = true ∧
      getEntryD (handle_cycle_error region now errorText st).pause_until region
          none = some (now + 30) ∧
      now < now + 30 ∧
      getEntryD (handle_cycle_error region now errorText st).pause_reason region
          none = some ("3 consecutive failures: " ++ errorText) ∧
      getEntryD (handle_cycle_error region now errorText st).consecutive_failures
          region 0 = 3) ∧
    (getEntryD st.consecutive_failures region 0 + 1 ≤ 2 →
      (handle_cycle_error region now errorText st).is_paused = st.is_paused ∧
      (handle_cycle_error region now errorText st).pause_until =
        st.pause_until ∧
      (handle_cycle_error region now errorText st).pause_reason =
        st.pause_reason) ∧
    (∀ r', r' ≠ region →
      get_monitoring_status (handle_cycle_error region now errorText st) r' =
        get_monitoring_status st r') := by
  refine ⟨?_, ?_, ?_⟩
  · intro h2
    have htrip : getEntryD st.consecutive_failures region 0 + 1 ≥ 3 := by omega
    simp only [handle_cycle_error, pause_monitoring, if_pos htrip]
    refine ⟨?_, ?_, by omega, ?_, ?_⟩ <;>
      simp [getEntryD_setEntry_self, h2]
  · intro h2
    have htrip : ¬ 2 ≤ getEntryD st.consecutive_failures region 0 := by omega
    simp [handle_cycle_error, htrip]
  · intro r' hr'
    have hne : region ≠ r' := fun h => hr' h.symm
    by_cases htrip : getEntryD st.consecutive_failures region 0 + 1 ≥ 3 <;>
      simp [handle_cycle_error, pause_monitoring, htrip, get_monitoring_status,
        getEntryD_setEntry_ne _ _ _ _ _ hne]

/-- A monitor state in which CHINA has 2 recorded consecutive failures and
HONG_KONG is mid-session with its own status. -/
def stBreaker : MonitorState :=
  { MonitorState.initial with
    monitoring_active := [(.CHINA, true), (.HONG_KONG, true)],
    consecutive_failures := [(.CHINA, 2), (.HONG_KONG, 1)],
    total_cycles_today := [(.HONG_KONG, 4)] }

/-- Witness for C2: the third consecutive failure for CHINA trips the
breaker and HONG_KONG's status is untouched. -/
theorem c2_witness :
    getEntryD stBreaker.consecutive_failures .CHINA 0 = 2 ∧
    (getEntryD (handle_cycle_error .CHINA 1000 "data feed down"
        stBreaker).is_paused .CHINA false = true ∧
      getEntryD (handle_cycle_error .CHINA 1000 "data feed down"
        stBreaker).pause_until .CHINA none = some (1000 + 30) ∧
      (1000 : Int) < 1000 + 30 ∧
      getEntryD (handle_cycle_error .CHINA 1000 "data feed down"
        stBreaker).pause_reason .CHINA none =
          some ("3 consecutive failures: " ++ "data feed down") ∧
      getEntryD (handle_cycle_error .CHINA 1000 "data feed down"
        stBreaker).consecutive_failures .CHINA 0 = 3) ∧
    get_monitoring_status (handle_cycle_error .CHINA 1000 "data feed down"
        stBreaker) .HONG_KONG =
      get_monitoring_status stBreaker .HONG_KONG :=
  ⟨by decide,
   (c2_circuit_breaker stBreaker .CHINA 1000 "data feed down").1 (by decide),
   (c2_circuit_breaker stBreaker .CHINA 1000 "data feed down").2.2 .HONG_KONG
     (by decide)⟩

/-- C1 (as stated) is refuted: with a holiday source that raises, the
failure is caught inside holiday loading and treated as "no holidays", so
`is_market_open` still reports `true` mid-session — an internal
holiday-source failure does not resolve to `False`. -/
theorem c1_counterexample :
    envHKErr.getMarketHolidays .HONG_KONG = .error "holiday source failure" ∧
    (is_market_open envHKErr [] .HONG_KONG (Dt.utc t0607_1000HK)).1 = true :=
  ⟨rfl, by decide⟩

/-- C1 (amended) — Fail-safe behaviour that the code does provide:
`is_market_open` is a total Boolean function (never raises); a timezone id
missing from the timezone database yields `False`; an erroring holiday
source is treated exactly as an empty holiday calendar (it does not by
itself force `False`); and whenever `is_market_open` is `False`,
`_should_execute_cycle` is `False`, so no cycle is scheduled. -/
theorem c1_fail_safe_amended :
    (∀ (env : DetectorEnv) (cache : HolidayCache) (region : MarketRegion)
        (checkTime : Dt) (mi : MarketInfo),
      MARKET_HOURS region = some mi → env.tzdb mi.tzName = none →
      (is_market_open env cache region checkTime).1 = false) ∧
    (∀ (tzdb : String → Option Tz)
        (holSrc : MarketRegion → Except String (List String))
        (region : MarketRegion) (checkTime : Dt) (e : String),
      holSrc region = .error e →
      (is_market_open ⟨tzdb, holSrc⟩ [] region checkTime).1 =
        (is_market_open ⟨tzdb, fun _ => .ok []⟩ [] region checkTime).1) ∧
    (∀ (env : DetectorEnv) (cache : HolidayCache) (region : MarketRegion)
        (tOpen tCmp : Int) (nct : Option Int),
      (is_market_open env cache region (.naive tOpen)).1 = false →
      (should_execute_cycle env cache region tOpen tCmp nct).1 = false) := by
  refine ⟨?_, ?_, ?_⟩
  · intro env cache region checkTime mi hmi htz
    cases checkTime <;> simp [is_market_open, hmi, utc_to_local, htz]
  · intro tzdb holSrc region checkTime e he
    cases hmi : MARKET_HOURS region with
    | none => cases checkTime <;> simp [is_market_open, hmi]
    | some mi =>
      cases htz : tzdb mi.tzName with
      | none => cases checkTime <;> simp [is_market_open, hmi, utc_to_local, htz]
      | some z =>
        cases checkTime <;>
          simp [is_market_open, hmi, utc_to_local, htz, is_market_holiday,
            lookupEntry, load_holidays, he]
  · intro env cache region tOpen tCmp nct h
    simp [should_execute_cycle, h]

/-- Witness for C1 (amended): an unknown timezone id closes the market, and
a closed market (here: a Saturday) blocks `_should_execute_cycle`. -/
theorem c1_witness :
    envNoTz.tzdb "Asia/Hong_Kong" = none ∧
    (is_market_open envNoTz [] .HONG_KONG (Dt.utc t0607_1000HK)).1 = false ∧
    (is_market_open envHK [] .HONG_KONG
      (.naive (mkMinutes 2023 6 10 2 0))).1 = false ∧
    (should_execute_cycle envHK [] .HONG_KONG (mkMinutes 2023 6 10 2 0) 0
      none).1 = false :=
  ⟨rfl,
   c1_fail_safe_amended.1 envNoTz [] .HONG_KONG (Dt.utc t0607_1000HK)
     ⟨9 * 60 + 30, 16 * 60, "Asia/Hong_Kong"⟩ rfl rfl,
   by decide,
   c1_fail_safe_amended.2.2 envHK [] .HONG_KONG (mkMinutes 2023 6 10 2 0) 0
     none (by decide)⟩

/-- C5 — Market-open algorithm: for a supported region whose timezone is in
the database, `is_market_open` at an aware UTC instant converts it to the
market's local wall clock `w = i + offset(i)` and is open exactly when the
local weekday is not Saturday/Sunday, the local date is not a configured
holiday, and `open ≤ localTime < close` (half-open: the close minute itself
is closed). -/
theorem c5_market_open_algorithm (env : DetectorEnv) (cache : HolidayCache)
    (region : MarketRegion) (i : Int) (mi : MarketInfo) (z : Tz)
    (hmi : MARKET_HOURS region = some mi) (hz : env.tzdb mi.tzName = some z) :
    (is_market_open env cache region (Dt.utc i)).1 =
      (!decide (weekdayOfMinutes (i + z.utcOffsetAt i) ≥ 5) &&
       !(is_market_holiday env cache region
           (dateOfMinutes (i + z.utcOffsetAt i))).1 &&
       decide (mi.openTime ≤ timeOfMinutes (i + z.utcOffsetAt i) ∧
               timeOfMinutes (i + z.utcOffsetAt i) < mi.closeTime)) := by
  simp only [is_market_open, Dt.utc, hmi, utc_to_local, hz, is_weekend,
    Dt.wallOf]
  by_cases hw : weekdayOfMinutes (i + z.utcOffsetAt i) ≥ 5
  · simp [hw]
  · by_cases hh :
        (is_market_holiday env cache region
          (dateOfMinutes (i + z.utcOffsetAt i))).1 = true <;>
      simp [hw, hh]

/-- Witness for C5, covering the spec scenarios: HONG_KONG with window
[09:30, 16:00) local is open at 10:00 local and closed at exactly 16:00
local on a non-holiday weekday, and closed mid-session on a configured
holiday. -/
theorem c5_witness :
    MARKET_HOURS .HONG_KONG = some ⟨9 * 60 + 30, 16 * 60, "Asia/Hong_Kong"⟩ ∧
    envHK.tzdb "Asia/Hong_Kong" = some (tzFixed 480) ∧
    (is_market_open envHK [] .HONG_KONG (Dt.utc t0607_1000HK)).1 =
      (!decide (weekdayOfMinutes (t0607_1000HK +
          (tzFixed 480).utcOffsetAt t0607_1000HK) ≥ 5) &&
       !(is_market_holiday envHK [] .HONG_KONG
           (dateOfMinutes (t0607_1000HK +
             (tzFixed 480).utcOffsetAt t0607_1000HK))).1 &&
       decide ((9 * 60 + 30 : Int) ≤ timeOfMinutes (t0607_1000HK +
           (tzFixed 480).utcOffsetAt t0607_1000HK) ∧
         timeOfMinutes (t0607_1000HK +
           (tzFixed 480).utcOffsetAt t0607_1000HK) < 16 * 60)) ∧
    (is_market_open envHK [] .HONG_KONG (Dt.utc t0607_1000HK)).1 = true ∧
    (is_market_open envHK [] .HONG_KONG (Dt.utc t0607_1600HK)).1 = false ∧
    (is_market_open envHKHoliday [] .HONG_KONG (Dt.utc t0607_1000HK)).1 =
      false :=
  ⟨rfl, rfl,
   c5_market_open_algorithm envHK [] .HONG_KONG t0607_1000HK
     ⟨9 * 60 + 30, 16 * 60, "Asia/Hong_Kong"⟩ (tzFixed 480) rfl rfl,
   by decide, by decide, by decide⟩

/-- The shared join budget is never exceeded: each join consumes at most
the remaining budget. -/
theorem joinWaitAux_le (budget : Int) (durations : MarketRegion → Int) :
    ∀ (threads : List (MarketRegion × Bool)) (elapsed : Int),
      elapsed ≤ budget → joinWaitAux budget durations threads elapsed ≤ budget := by
  intro threads
  induction threads with
  | nil => intro elapsed he; simpa [joinWaitAux] using he
  | cons p rest ih =>
    intro elapsed he
    by_cases hp : p.2 = true
    · by_cases hrem : budget - elapsed > 0
      · have hmin : min (durations p.1) (budget - elapsed) ≤ budget - elapsed :=
          min_le_right _ _
        simpa [joinWaitAux, hp, hrem] using
          ih (elapsed + min (durations p.1) (budget - elapsed)) (by omega)
      · simpa [joinWaitAux, hp, hrem] using ih elapsed he
    · simpa [joinWaitAux, hp] using ih elapsed he

/-- Folding `setEntry … false` over keys absent from `keys` leaves a
lookup unchanged. -/
theorem lookup_foldl_setFalse_notmem
    (keys : List (MarketRegion × Bool)) (acc : List (MarketRegion × Bool))
    (r : MarketRegion) (hr : lookupEntry r keys = none) :
    lookupEntry r (keys.foldl (fun a p => setEntry a p.1 false) acc) =
      lookupEntry r acc := by
  induction keys generalizing acc with
  | nil => simp
  | cons p rest ih =>
    obtain ⟨k, b⟩ := p
    simp only [lookupEntry] at hr
    by_cases hk : k = r
    · simp [hk] at hr
    · simp only [List.foldl_cons]
      rw [ih _ (by simpa [hk] using hr),
        lookupEntry_setEntry_ne _ _ _ _ hk]

/-- Folding `setEntry … false` over the stop-flag dict forces every
present key to `false`. -/
theorem lookup_foldl_setFalse
    (keys : List (MarketRegion × Bool)) (acc : List (MarketRegion × Bool))
    (r : MarketRegion) (hr : (lookupEntry r keys).isSome = true) :
    lookupEntry r (keys.foldl (fun a p => setEntry a p.1 false) acc) =
      some false := by
  induction keys generalizing acc with
  | nil => simp [lookupEntry] at hr
  | cons p rest ih =>
    obtain ⟨k, b⟩ := p
    simp only [List.foldl_cons]
    cases hrest : lookupEntry r rest with
    | some v => exact ih _ (by simp [hrest])
    | none =>
      have hk : k = r := by
        by_contra hk
        simp [lookupEntry, hk, hrest] at hr
      subst hk
      rw [lookup_foldl_setFalse_notmem rest _ k hrest,
        lookupEntry_setEntry_self]

/-- C6 (as stated) is refuted: `stop_monitoring` clears only the thread
and stop-flag dicts; the other per-region status maps survive — here a
recorded failure count of 2 for CHINA is still present (and observable)
after `stop_monitoring` returns. -/
theorem c6_counterexample :
    (stop_monitoring (fun _ => 0) stBreaker).1.consecutive_failures =
      [(.CHINA, 2), (.HONG_KONG, 1)] ∧
    (stop_monitoring (fun _ => 0) stBreaker).1.consecutive_failures ≠ [] ∧
    (get_monitoring_status (stop_monitoring (fun _ => 0) stBreaker).1
      .CHINA).consecutive_failures = 2 := by
  refine ⟨by decide, by decide, by decide⟩

/-- C6 (amended) — `stop_monitoring` postcondition: the global stop flag is
set; the thread and stop-flag dicts — and only those two per-region maps —
are cleared regardless of whether every loop exited, while the remaining
status maps (the pause fields `is_paused`/`pause_until`/`pause_reason`,
the failure and cycle counters, and the cycle-time maps) are retained
unchanged; every region that had a stop flag is signalled and marked
inactive; and the total join wait is bounded by the fixed 30-second
budget. -/
theorem c6_stop_monitoring_amended (durations : MarketRegion → Int)
    (st : MonitorState) :
    (stop_monitoring durations st).1.global_stop = true ∧
    (stop_monitoring durations st).1.monitoring_threads = [] ∧
    (stop_monitoring durations st).1.stop_flags = [] ∧
    (stop_monitoring durations st).1.consecutive_failures =
      st.consecutive_failures ∧
    (stop_monitoring durations st).1.total_cycles_today =
      st.total_cycles_today ∧
    (stop_monitoring durations st).1.is_paused = st.is_paused ∧
    (stop_monitoring durations st).1.pause_until = st.pause_until ∧
    (stop_monitoring durations st).1.pause_reason = st.pause_reason ∧
    (stop_monitoring durations st).1.last_cycle_time = st.last_cycle_time ∧
    (stop_monitoring durations st).1.next_cycle_time = st.next_cycle_time ∧
    (∀ r, (lookupEntry r st.stop_flags).isSome = true →
      getEntryD (stop_monitoring durations st).1.monitoring_active r false =
        false) ∧
    (stop_monitoring durations st).2 ≤ 30 := by
  refine ⟨rfl, rfl, rfl, rfl, rfl, rfl, rfl, rfl, rfl, rfl, ?_, ?_⟩
  · intro r hr
    simp only [stop_monitoring, getEntryD]
    rw [lookup_foldl_setFalse st.stop_flags st.monitoring_active r hr]
    rfl
  · exact joinWaitAux_le 30 durations _ 0 (by omega)

/-- A monitor state with two running regions; USA's thread would need 100
seconds to exit, far beyond the budget. -/
def stRunning : MonitorState :=
  { MonitorState.initial with
    monitoring_threads := [(.CHINA, true), (.USA, true)],
    stop_flags := [(.CHINA, false), (.USA, false)],
    monitoring_active := [(.CHINA, true), (.USA, true)] }

/-- Witness for C6 (amended): CHINA had a stop flag, is signalled inactive,
and the join wait respects the 30-second budget even with a straggler. -/
theorem c6_witness :
    (lookupEntry .CHINA stRunning.stop_flags).isSome = true ∧
    getEntryD (stop_monitoring (fun _ => 100) stRunning).1.monitoring_active
      .CHINA false = false ∧
    (stop_monitoring (fun _ => 100) stRunning).2 ≤ 30 :=
  ⟨by decide,
   (c6_stop_monitoring_amended (fun _ => 100)
     stRunning).2.2.2.2.2.2.2.2.2.2.1 .CHINA (by decide),
   (c6_stop_monitoring_amended (fun _ => 100)
     stRunning).2.2.2.2.2.2.2.2.2.2.2⟩

/-! ### start_monitoring lemmas -/

/-- Number of entries of a key in an association list. -/
def countKey {α : Type} (r : MarketRegion) : List (MarketRegion × α) → Nat
  | [] => 0
  | p :: rest => (if p.1 = r then 1 else 0) + countKey r rest

theorem countKey_setEntry_self {α : Type} (m : List (MarketRegion × α))
    (r : MarketRegion) (v : α) (h : countKey r m ≤ 1) :
    countKey r (setEntry m r v) = 1 := by
  induction m with
  | nil => simp [setEntry, countKey]
  | cons p rest ih =>
    obtain ⟨k, w⟩ := p
    by_cases hk : k = r
    · subst hk
      simp [setEntry, countKey] at h ⊢
      omega
    · simp [setEntry, countKey, hk] at h ⊢
      exact ih h

theorem countKey_setEntry_ne {α : Type} (m : List (MarketRegion × α))
    (k r : MarketRegion) (v : α) (h : k ≠ r) :
    countKey r (setEntry m k v) = countKey r m := by
  induction m with
  | nil => simp [setEntry, countKey, h]
  | cons p rest ih =>
    obtain ⟨k', w⟩ := p
    by_cases hk' : k' = k
    · subst hk'
      simp [setEntry, countKey, h]
    · simp only [setEntry, if_neg hk', countKey]
      omega

/-- `startRegion` on one region leaves every other region's entries (and
entry counts) unchanged. -/
theorem startRegion_preserves (st : MonitorState) (a r : MarketRegion)
    (h : a ≠ r) :
    lookupEntry r (startRegion st a).monitoring_threads =
      lookupEntry r st.monitoring_threads ∧
    lookupEntry r (startRegion st a).monitoring_active =
      lookupEntry r st.monitoring_active ∧
    lookupEntry r (startRegion st a).is_paused =
      lookupEntry r st.is_paused ∧
    lookupEntry r (startRegion st a).pause_until =
      lookupEntry r st.pause_until ∧
    lookupEntry r (startRegion st a).pause_reason =
      lookupEntry r st.pause_reason ∧
    countKey r (startRegion st a).monitoring_threads =
      countKey r st.monitoring_threads := by
  by_cases halive : lookupEntry a st.monitoring_threads = some true <;>
    simp [startRegion, halive, lookupEntry_setEntry_ne _ _ _ _ h,
      countKey_setEntry_ne _ _ _ _ h]

/-- `startRegion` never touches the failure counters, the cycle counters,
or the cycle-time maps. -/
theorem startRegion_counters (st : MonitorState) (a : MarketRegion) :
    (startRegion st a).consecutive_failures = st.consecutive_failures ∧
    (startRegion st a).total_cycles_today = st.total_cycles_today ∧
    (startRegion st a).last_cycle_time = st.last_cycle_time ∧
    (startRegion st a).next_cycle_time = st.next_cycle_time := by
  by_cases halive : lookupEntry a st.monitoring_threads = some true <;>
    simp [startRegion, halive]

/-- `startRegion` on an alive region is a no-op. -/
theorem startRegion_alive (st : MonitorState) (a : MarketRegion)
    (h : lookupEntry a st.monitoring_threads = some true) :
    startRegion st a = st := by
  simp [startRegion, h]

/-- `startRegion` on a region without an alive thread initializes it. -/
theorem startRegion_fresh (st : MonitorState) (r : MarketRegion)
    (h : ¬ lookupEntry r st.monitoring_threads = some true) :
    lookupEntry r (startRegion st r).monitoring_threads = some true ∧
    lookupEntry r (startRegion st r).monitoring_active = some true ∧
    lookupEntry r (startRegion st r).is_paused = some false ∧
    lookupEntry r (startRegion st r).pause_until = some none ∧
    lookupEntry r (startRegion st r).pause_reason = some none := by
  simp [startRegion, h, lookupEntry_setEntry_self]

/-- The whole `start_monitoring` fold never touches the failure counters,
the cycle counters, or the cycle-time maps. -/
theorem foldl_startRegion_counters (regions : List MarketRegion) :
    ∀ st : MonitorState,
      (regions.foldl startRegion st).consecutive_failures =
        st.consecutive_failures ∧
      (regions.foldl startRegion st).total_cycles_today =
        st.total_cycles_today ∧
      (regions.foldl startRegion st).last_cycle_time = st.last_cycle_time ∧
      (regions.foldl startRegion st).next_cycle_time = st.next_cycle_time := by
  induction regions with
  | nil => intro st; simp
  | cons a rest ih =>
    intro st
    simp only [List.foldl_cons]
    obtain ⟨h₁, h₂, h₃, h₄⟩ := ih (startRegion st a)
    obtain ⟨g₁, g₂, g₃, g₄⟩ := startRegion_counters st a
    exact ⟨h₁.trans g₁, h₂.trans g₂, h₃.trans g₃, h₄.trans g₄⟩

/-- The `start_monitoring` fold is a per-region no-op for a region whose
thread is alive: its entries are unchanged. -/
theorem foldl_startRegion_noop (regions : List MarketRegion) :
    ∀ (st : MonitorState) (r : MarketRegion),
      lookupEntry r st.monitoring_threads = some true →
      lookupEntry r (regions.foldl startRegion st).monitoring_threads =
        some true ∧
      lookupEntry r (regions.foldl startRegion st).monitoring_active =
        lookupEntry r st.monitoring_active ∧
      lookupEntry r (regions.foldl startRegion st).is_paused =
        lookupEntry r st.is_paused ∧
      lookupEntry r (regions.foldl startRegion st).pause_until =
        lookupEntry r st.pause_until ∧
      lookupEntry r (regions.foldl startRegion st).pause_reason =
        lookupEntry r st.pause_reason ∧
      countKey r (regions.foldl startRegion st).monitoring_threads =
        countKey r st.monitoring_threads := by
  induction regions with
  | nil => intro st r h; simp [h]
  | cons a rest ih =>
    intro st r h
    simp only [List.foldl_cons]
    by_cases ha : a = r
    · subst ha
      rw [startRegion_alive st a h]
      exact ih st a h
    · obtain ⟨p₁, p₂, p₃, p₄, p₅, p₆⟩ := startRegion_preserves st a r ha
      obtain ⟨q₁, q₂, q₃, q₄, q₅, q₆⟩ :=
        ih (startRegion st a) r (p₁.trans h)
      exact ⟨q₁, q₂.trans p₂, q₃.trans p₃, q₄.trans p₄, q₅.trans p₅,
        q₆.trans p₆⟩

/-- The `start_monitoring` fold starts a listed region without an alive
thread: afterwards it has exactly one (alive) thread entry, is active, and
its pause fields are cleared. -/
theorem foldl_startRegion_fresh (regions : List MarketRegion) :
    ∀ (st : MonitorState) (r : MarketRegion), r ∈ regions →
      ¬ lookupEntry r st.monitoring_threads = some true →
      countKey r st.monitoring_threads ≤ 1 →
      lookupEntry r (regions.foldl startRegion st).monitoring_threads =
        some true ∧
      lookupEntry r (regions.foldl startRegion st).monitoring_active =
        some true ∧
      lookupEntry r (regions.foldl startRegion st).is_paused = some false ∧
      lookupEntry r (regions.foldl startRegion st).pause_until = some none ∧
      lookupEntry r (regions.foldl startRegion st).pause_reason = some none ∧
      countKey r (regions.foldl startRegion st).monitoring_threads = 1 := by
  induction regions with
  | nil => intro st r hr; simp at hr
  | cons a rest ih =>
    intro st r hr hnot hcount
    simp only [List.foldl_cons]
    by_cases ha : a = r
    · subst ha
      obtain ⟨f₁, f₂, f₃, f₄, f₅⟩ := startRegion_fresh st a hnot
      have hcount' : countKey a (startRegion st a).monitoring_threads = 1 := by
        simp only [startRegion, if_neg hnot]
        exact countKey_setEntry_self _ _ _ hcount
      obtain ⟨q₁, q₂, q₃, q₄, q₅, q₆⟩ :=
        foldl_startRegion_noop rest (startRegion st a) a f₁
      exact ⟨q₁, q₂.trans f₂, q₃.trans f₃, q₄.trans f₄, q₅.trans f₅,
        q₆.trans hcount'⟩
    · obtain ⟨p₁, p₂, p₃, p₄, p₅, p₆⟩ := startRegion_preserves st a r ha
      have hr' : r ∈ rest := by
        cases hr with
        | head => exact absurd rfl ha
        | tail _ h => exact h
      exact ih (startRegion st a) r hr' (by rwa [p₁]) (by rwa [p₆])

/-- A configuration enabling CHINA only. -/
def cfgChina : IntradayConfig := ⟨true, 60, ["china"]⟩

/-- A monitor state previously stopped after 5 CHINA cycles: no thread
entries, but the cycle counter survives. -/
def stRestart : MonitorState :=
  { MonitorState.initial with total_cycles_today := [(.CHINA, 5)] }

/-- C7 (as stated) is refuted: restarting a previously-stopped region does
not re-initialize its counters — immediately after `start_monitoring`,
before any tick, CHINA is active yet reports `total_cycles_today = 5`,
not 0. -/
theorem c7_counterexample :
    parseMarketRegion "china" = some .CHINA ∧
    lookupEntry .CHINA stRestart.monitoring_threads ≠ some true ∧
    (get_monitoring_status (start_monitoring (.ok cfgChina) stRestart)
      .CHINA).is_active = true ∧
    (get_monitoring_status (start_monitoring (.ok cfgChina) stRestart)
      .CHINA).total_cycles_today = 5 ∧
    (get_monitoring_status (start_monitoring (.ok cfgChina) stRestart)
      .CHINA).total_cycles_today ≠ 0 :=
  ⟨rfl, by decide, by decide, by decide, by decide⟩

/-- C7 (amended) — `start_monitoring` contract: for every enabled
configuration and valid configured region `r`, if `r` has no alive loop
then exactly one loop is spawned for it (one alive thread entry), it
becomes active with the pause fields cleared, and its failure and cycle
counters are retained rather than re-initialized (so a never-started
region reports `consecutive_failures = 0` and `total_cycles_today = 0`);
if `r`'s loop is alive, the call is a per-region no-op. -/
theorem c7_start_monitoring_amended (config : IntradayConfig)
    (st : MonitorState) (region : MarketRegion)
    (hen : config.enabled = true)
    (hmem : region ∈ config.monitored_regions.filterMap parseMarketRegion) :
    (¬ lookupEntry region st.monitoring_threads = some true →
      countKey region st.monitoring_threads ≤ 1 →
      (get_monitoring_status (start_monitoring (.ok config) st)
        region).is_active = true ∧
      (get_monitoring_status (start_monitoring (.ok config) st)
        region).is_paused = false ∧
      (get_monitoring_status (start_monitoring (.ok config) st)
        region).pause_until = none ∧
      (get_monitoring_status (start_monitoring (.ok config) st)
        region).pause_reason = none ∧
      (get_monitoring_status (start_monitoring (.ok config) st)
        region).consecutive_failures =
          getEntryD st.consecutive_failures region 0 ∧
      (get_monitoring_status (start_monitoring (.ok config) st)
        region).total_cycles_today =
          getEntryD st.total_cycles_today region 0 ∧
      countKey region
        (start_monitoring (.ok config) st).monitoring_threads = 1) ∧
    (lookupEntry region st.monitoring_threads = some true →
      countKey region (start_monitoring (.ok config) st).monitoring_threads =
        countKey region st.monitoring_threads ∧
      get_monitoring_status (start_monitoring (.ok config) st) region =
        get_monitoring_status st region) := by
  have hne : config.monitored_regions ≠ [] := by
    intro hempty
    rw [hempty] at hmem
    simp at hmem
  have hregions : config.monitored_regions.filterMap parseMarketRegion ≠ [] := by
    intro hempty
    rw [hempty] at hmem
    simp at hmem
  have hstart : start_monitoring (.ok config) st =
      (config.monitored_regions.filterMap parseMarketRegion).foldl
        startRegion st := by
    simp [start_monitoring, hen, hne, hregions]
  constructor
  · intro hnot hcount
    obtain ⟨q₁, q₂, q₃, q₄, q₅, q₆⟩ :=
      foldl_startRegion_fresh _ st region hmem hnot hcount
    obtain ⟨c₁, c₂, _, _⟩ := foldl_startRegion_counters
      (config.monitored_regions.filterMap parseMarketRegion) st
    rw [hstart]
    refine ⟨?_, ?_, ?_, ?_, ?_, ?_, q₆⟩ <;>
      simp [get_monitoring_status, getEntryD, q₁, q₂, q₃, q₄, q₅, c₁, c₂]
  · intro halive
    obtain ⟨q₁, q₂, q₃, q₄, q₅, q₆⟩ :=
      foldl_startRegion_noop _ st region halive
    obtain ⟨c₁, c₂, c₃, c₄⟩ := foldl_startRegion_counters
      (config.monitored_regions.filterMap parseMarketRegion) st
    rw [hstart]
    refine ⟨q₆, ?_⟩
    simp [get_monitoring_status, getEntryD, q₁.trans halive.symm, q₂, q₃, q₄,
      q₅, c₁, c₂, c₃, c₄]

/-- Witness for C7 (amended): starting CHINA on a fresh monitor reports
active, not paused, and zero counters before any tick. -/
theorem c7_witness :
    cfgChina.enabled = true ∧
    MarketRegion.CHINA ∈ cfgChina.monitored_regions.filterMap
      parseMarketRegion ∧
    (get_monitoring_status (start_monitoring (.ok cfgChina)
      MonitorState.initial) .CHINA).is_active = true ∧
    (get_monitoring_status (start_monitoring (.ok cfgChina)
      MonitorState.initial) .CHINA).is_paused = false ∧
    (get_monitoring_status (start_monitoring (.ok cfgChina)
      MonitorState.initial) .CHINA).total_cycles_today = 0 ∧
    countKey .CHINA (start_monitoring (.ok cfgChina)
      MonitorState.initial).monitoring_threads = 1 := by
  have h := (c7_start_monitoring_amended cfgChina MonitorState.initial .CHINA
    rfl (by decide)).1 (by decide) (by decide)
  exact ⟨rfl, by decide, h.1, h.2.1, h.2.2.2.2.2.1.trans (by decide),
    h.2.2.2.2.2.2⟩

/-! ### tick lemmas -/

/-- `_handle_cycle_error` touches the failure map exactly by incrementing
the region's count (the breaker trip changes only the pause fields). -/
theorem handle_cycle_error_failures (region : MarketRegion) (now : Int)
    (errorText : String) (st : MonitorState) :
    (handle_cycle_error region now errorText st).consecutive_failures =
      setEntry st.consecutive_failures region
        (getEntryD st.consecutive_failures region 0 + 1) := by
  by_cases h : 2 ≤ getEntryD st.consecutive_failures region 0 <;>
    simp [handle_cycle_error, pause_monitoring, h]

/-- The open-transition reset of `next_cycle_time` leaves the failure map
unchanged. -/
theorem tickOpenReset_failures (region : MarketRegion) (st : MonitorState)
    (isOpen wasOpen : Bool) :
    (tickOpenReset region isOpen wasOpen st).consecutive_failures =
      st.consecutive_failures := by
  by_cases hc : (isOpen && !wasOpen) = true <;> simp [tickOpenReset, hc]

/-- The post-cycle rescheduling leaves the failure map unchanged. -/
theorem tickReschedule_failures (region : MarketRegion)
    (tNext intervalMinutes : Int) (stillOpen : Bool) (st₂ : MonitorState) :
    (tickReschedule region tNext intervalMinutes stillOpen
      st₂).consecutive_failures = st₂.consecutive_failures := by
  by_cases hc : stillOpen = true <;> simp [tickReschedule, hc]

/-- The post-cycle bookkeeping sets the region's failure count to 0 on
success and increments it by exactly 1 on failure. -/
theorem tickCycleUpdate_failures (region : MarketRegion) (tErr : Int)
    (result : AnalysisCycleResult) (st₁ : MonitorState) :
    getEntryD (tickCycleUpdate region tErr result st₁).consecutive_failures
        region 0 =
      if result.success then 0
      else getEntryD st₁.consecutive_failures region 0 + 1 := by
  by_cases hs : result.success = true <;>
    simp [tickCycleUpdate, hs, handle_cycle_error_failures,
      getEntryD_setEntry_self]

/-- Failure-count behaviour of the tick body: the count is reset to 0 by a
successful cycle, incremented by exactly 1 by a failed cycle, and unchanged
when no cycle runs. -/
theorem tickBody_failures (env : DetectorEnv) (region : MarketRegion)
    (intervalMinutes : Int) (tt : TickTimes) (result : AnalysisCycleResult)
    (st : MonitorState) (cache : HolidayCache) (wasOpen : Bool) :
    getEntryD (tickBody env region intervalMinutes tt result st cache
        wasOpen).1.consecutive_failures region 0 =
      if tickBodyCycled env region tt st cache wasOpen then
        (if result.success then 0
         else getEntryD st.consecutive_failures region 0 + 1)
      else getEntryD st.consecutive_failures region 0 := by
  simp only [tickBody, tickBodyCycled]
  by_cases hse : (should_execute_cycle env
      (is_market_open env cache region (.naive tt.tOpen)).2 region
      tt.tShouldOpen tt.tShouldCmp
      (getEntryD (tickOpenReset region
        (is_market_open env cache region (.naive tt.tOpen)).1 wasOpen
        st).next_cycle_time region none)).1 = true
  · simp only [hse, if_true]
    rw [tickReschedule_failures, tickCycleUpdate_failures,
      tickOpenReset_failures]
  · simp only [hse, if_false, Bool.false_eq_true]
    rw [tickOpenReset_failures]

/-- C3 — Failure-counter discipline: in every loop tick the region's
`consecutive_failures` is unchanged when the tick is skipped (still
paused), becomes `base + 1` when a cycle runs and fails, becomes 0 when a
cycle runs and succeeds, and otherwise equals `base`, where `base` is 0
after a pause-expiry resume and the old count otherwise — so the count
increments by exactly 1 per recorded failure and resets to 0 exactly on a
success tick or a pause-expiry resume tick; and neither `start_monitoring`
nor `stop_monitoring` (nor the pure status query) changes the failure
map. -/
theorem c3_failure_counter_discipline :
    (∀ (env : DetectorEnv) (region : MarketRegion) (intervalMinutes : Int)
        (tt : TickTimes) (result : AnalysisCycleResult) (st : MonitorState)
        (cache : HolidayCache) (wasOpen : Bool),
      getEntryD (tick env region intervalMinutes tt result st cache
          wasOpen).1.consecutive_failures region 0 =
        if tickSkipped region tt st then
          getEntryD st.consecutive_failures region 0
        else if tickCycled env region tt st cache wasOpen then
          (if result.success then 0
           else (if tickResumed region tt st then 0
                 else getEntryD st.consecutive_failures region 0) + 1)
        else
          (if tickResumed region tt st then 0
           else getEntryD st.consecutive_failures region 0)) ∧
    (∀ (configCall : Except String IntradayConfig) (st : MonitorState),
      (start_monitoring configCall st).consecutive_failures =
        st.consecutive_failures) ∧
    (∀ (durations : MarketRegion → Int) (st : MonitorState),
      (stop_monitoring durations st).1.consecutive_failures =
        st.consecutive_failures) := by
  refine ⟨?_, ?_, ?_⟩
  · intro env region intervalMinutes tt result st cache wasOpen
    by_cases hp : getEntryD st.is_paused region false = true
    · cases hpu : getEntryD st.pause_until region none with
      | none =>
        have hres : tickResumed region tt st = false := by
          simp [tickResumed, hp, hpu]
        have hskip : tickSkipped region tt st = true := by
          simp [tickSkipped, hp, hres]
        simp [tick, hp, hpu, hskip]
      | some pu =>
        by_cases hexp : tt.tPause ≥ pu
        · have hres : tickResumed region tt st = true := by
            simp [tickResumed, hp, hpu, hexp]
          have hskip : tickSkipped region tt st = false := by
            simp [tickSkipped, hres]
          have hcfres : getEntryD
              (resumeRegion region st).consecutive_failures region 0 = 0 := by
            simp [resumeRegion, getEntryD_setEntry_self]
          simp only [tick, hp, hpu, if_pos hexp, if_true]
          rw [tickBody_failures, hcfres]
          simp [tickCycled, hskip, hres]
        · have hres : tickResumed region tt st = false := by
            simp [tickResumed, hp, hpu, hexp]
          have hskip : tickSkipped region tt st = true := by
            simp [tickSkipped, hp, hres]
          simp [tick, hp, hpu, hexp, hskip]
    · have hres : tickResumed region tt st = false := by
        simp [tickResumed, hp]
      have hskip : tickSkipped region tt st = false := by
        simp [tickSkipped, hp]
      simp only [tick, hp, if_false, Bool.false_eq_true]
      rw [tickBody_failures]
      simp [tickCycled, hskip, hres]
  · intro configCall st
    cases configCall with
    | error e => rfl
    | ok config =>
      simp only [start_monitoring]
      split
      · rfl
      · split
        · rfl
        · split
          · rfl
          · exact (foldl_startRegion_counters _ st).1
  · intro durations st
    rfl

end SMA
